import Mathlib

/-!
Verification of `File_Deletion.py` (malathicse18/FileDeletion).

Shallow embedding of the task-store / scheduler / deletion-job core:

* The persisted `tasks.json` file is modelled by `FileState`: the file can be
  missing, hold unparsable text, or hold a parsed JSON value (`Json`).
* Python dicts read from JSON are modelled as ordered association lists
  (`JDict`), matching insertion-ordered Python dicts.
* The APScheduler background scheduler is modelled by its job store: a list of
  `(id, job)` pairs.  `add_job` follows APScheduler's documented default
  (`replace_existing=False`): adding a job whose id already exists raises
  `ConflictingIdError`, modelled as `Except.error`.
* The deletion job walks a directory, modelled as the flat list of files the
  `os.walk` loop visits, each carrying its basename, its last-modified time in
  whole seconds, and whether `os.remove` would succeed on it.

Integer-valued times stand in for Python's float timestamps: every claim about
the cutoff comparison is stated at whole-second granularity, where `<` on `Int`
agrees with `<` on the underlying floats.
-/

namespace FileDeletion

/-- JSON values, as produced by `json.load` / consumed by `json.dump`. -/
inductive Json where
  | null
  | bool (b : Bool)
  | num (n : Int)
  | str (s : String)
  | arr (elems : List Json)
  | obj (fields : List (String × Json))

/-- A parsed JSON object: the ordered key/value pairs of a Python dict. -/
abbrev JDict := List (String × Json)

/-- Lookup of a key in a JSON object's field list (Python `d[k]` / `k in d`). -/
def lookupField : JDict → String → Option Json
  | [], _ => none
  | (k', v) :: rest, k => if k' = k then some v else lookupField rest k

/-- `jGet? j k` reads field `k` of JSON value `j` when `j` is an object. -/
def jGet? (j : Json) (k : String) : Option Json :=
  match j with
  | .obj fields => lookupField fields k
  | _ => none

/-- Field access defaulting to `null`.  In well-formed stores (everything this
program ever writes) the key is always present, so the default is never hit. -/
def jGetD (j : Json) (k : String) : Json :=
  (jGet? j k).getD .null

/-- State of the persisted `tasks.json` file. -/
inductive FileState where
  | missing
  | malformed
  | json (j : Json)

/-- `load_tasks` (source lines 27-34): parse the tasks file; a missing file
(`FileNotFoundError`) or unparsable content (`JSONDecodeError`) yields `{}`,
as does parsed JSON that is not a dict (`isinstance` guard, line 32). -/
def load_tasks : FileState → JDict
  | .missing => []
  | .malformed => []
  | .json (.obj fields) => fields
  | .json _ => []

/-- `save_tasks` (source lines 36-39): `json.dump` replaces the file content
with the serialized dict. -/
def save_tasks (tasks : JDict) : FileState :=
  .json (.obj tasks)

/-- The typed content of one task record, as built at source lines 72-78. -/
structure TaskDetails where
  interval : Int
  unit : String
  directory : String
  age_days : Int
  formats : List String
deriving DecidableEq, Repr

/-- The JSON dict literal `new_task_details` of source lines 72-78. -/
def encodeTask (t : TaskDetails) : Json :=
  .obj [("interval", .num t.interval),
        ("unit", .str t.unit),
        ("directory", .str t.directory),
        ("age_days", .num t.age_days),
        ("formats", .arr (t.formats.map .str))]

/-- Encode a typed mapping of task definitions into the JSON dict persisted by
`save_tasks`. -/
def encodeStore (m : List (String × TaskDetails)) : JDict :=
  m.map (fun kv => (kv.1, encodeTask kv.2))

/-- Read a JSON array back as the list of strings it holds (the shape the
program gives the `formats` field). -/
def strListOfJson : List Json → Option (List String)
  | [] => some []
  | .str s :: rest => (strListOfJson rest).map (s :: ·)
  | _ :: _ => none

/-- Numeric field of a task record. -/
def asNum : Option Json → Option Int
  | some (.num n) => some n
  | _ => none

/-- String field of a task record. -/
def asStr : Option Json → Option String
  | some (.str s) => some s
  | _ => none

/-- String-list field of a task record. -/
def asStrList : Option Json → Option (List String)
  | some (.arr l) => strListOfJson l
  | _ => none

/-- Decode one persisted task record, reading exactly the five fields the
program reads (`interval`, `unit`, `directory`, `age_days`, `formats`). -/
def decodeTask (j : Json) : Option TaskDetails := do
  let i ← asNum (jGet? j "interval")
  let u ← asStr (jGet? j "unit")
  let d ← asStr (jGet? j "directory")
  let a ← asNum (jGet? j "age_days")
  let f ← asStrList (jGet? j "formats")
  pure ⟨i, u, d, a, f⟩

/-- Decode a persisted JSON dict back into a typed mapping of task records. -/
def decodeStore : JDict → Option (List (String × TaskDetails))
  | [] => some []
  | (k, v) :: rest =>
    match decodeTask v, decodeStore rest with
    | some t, some m => some ((k, t) :: m)
    | _, _ => none

theorem strListOfJson_map (l : List String) :
    strListOfJson (l.map Json.str) = some l := by
  induction l with
  | nil => rfl
  | cons a l ih => simp [strListOfJson, ih]

theorem decodeTask_encodeTask (t : TaskDetails) :
    decodeTask (encodeTask t) = some t := by
  obtain ⟨i, u, d, a, f⟩ := t
  show Option.bind (strListOfJson (f.map Json.str))
      (fun f' => some (TaskDetails.mk i u d a f')) = some (TaskDetails.mk i u d a f)
  rw [strListOfJson_map]
  rfl

theorem decodeStore_encodeStore (m : List (String × TaskDetails)) :
    decodeStore (encodeStore m) = some m := by
  induction m with
  | nil => rfl
  | cons kv rest ih =>
    simp only [encodeStore, List.map] at ih ⊢
    simp [decodeStore, decodeTask_encodeTask, ih]

/-! ## Scheduler model

APScheduler's `BackgroundScheduler`, seen through the three operations the
program uses: `add_job(..., id=...)`, `get_job(id)`, `remove_job(id)`.  The
job store is the list of `(id, job)` pairs in arming order.  Per APScheduler's
documented default `replace_existing=False`, `add_job` raises
`ConflictingIdError` when a job with the same id is already registered;
that exception is modelled as `Except.error` carrying the conflicting id. -/

/-- One armed trigger: the `IntervalTrigger` keyword pair and the captured
job arguments, kept as the raw JSON-level values the call sites pass. -/
structure JobEntry where
  unit : Json
  interval : Json
  directory : Json
  age_days : Json
  formats : Json

/-- The scheduler's job store: armed triggers keyed by job id. -/
abbrev Sched := List (String × JobEntry)

/-- `scheduler.add_job(..., id=task_name)` with the default
`replace_existing=False`: raises `ConflictingIdError` if the id exists. -/
def add_job (s : Sched) (id : String) (j : JobEntry) : Except String Sched :=
  if s.any (fun kv => kv.1 == id) then .error id else .ok (s ++ [(id, j)])

/-- `scheduler.get_job(id)` truthiness (source line 134). -/
def get_job (s : Sched) (id : String) : Bool :=
  s.any (fun kv => kv.1 == id)

/-- `scheduler.remove_job(id)` (source line 135). -/
def remove_job (s : Sched) (id : String) : Sched :=
  s.filter (fun kv => !(kv.1 == id))

/-- Number of armed triggers registered under `id`. -/
def triggerCount (s : Sched) (id : String) : Nat :=
  s.countP (fun kv => kv.1 == id)

/-- Combined mutable state of the program: the persisted tasks file and the
scheduler's job store. -/
structure SysState where
  file : FileState
  sched : Sched

/-! ## Task manager operations -/

/-- Python `d[k] = v` on a dict: update the key in place if present, else
append it in insertion order. -/
def dictSet : JDict → String → Json → JDict
  | [], k, v => [(k, v)]
  | (k', v') :: rest, k, v =>
    if k' = k then (k, v) :: rest else (k', v') :: dictSet rest k v

/-- Python `del d[k]` on a dict: drop the entry with key `k`. -/
def dictDel (d : JDict) (k : String) : JDict :=
  d.filter (fun kv => !(kv.1 == k))

/-- Python `k in d` on a dict. -/
def keyMem (k : String) (d : JDict) : Bool :=
  d.any (fun kv => kv.1 == k)

/-- The duplicate test of source lines 82-88 against one stored record:
field-by-field equality on `interval`, `unit`, `directory`, `age_days`,
and equality of `formats` as sets (`set(stored) == set(formats)`).  A stored
`formats` value that is not an array of strings compares unequal, as a Python
set of non-strings would. -/
def dupMatch (interval : Int) (unit directory : String) (age_days : Int)
    (formats : List String) (d : Json) : Bool :=
  (match jGetD d "interval" with | .num m => m == interval | _ => false) &&
  (match jGetD d "unit" with | .str t => t == unit | _ => false) &&
  (match jGetD d "directory" with | .str t => t == directory | _ => false) &&
  (match jGetD d "age_days" with | .num m => m == age_days | _ => false) &&
  (match jGetD d "formats" with
   | .arr l =>
     l.all (fun j => match j with | .str t => formats.contains t | _ => false) &&
     formats.all (fun s => l.any (fun j => match j with | .str t => t == s | _ => false))
   | _ => false)

/-- Result of `add_file_deletion_task`: duplicate rejection (line 89-90),
success (line 104), or a `ConflictingIdError` escaping from
`scheduler.add_job` at line 100 after the store was already saved. -/
inductive AddResult where
  | duplicate
  | added (id : String)
  | conflict (id : String)
deriving DecidableEq, Repr

/-- `add_file_deletion_task` (source lines 67-104): load the store, derive the
task name from the current task count, reject duplicates without mutating
anything, otherwise write the entry, persist, and arm the trigger. -/
def add_file_deletion_task (interval : Int) (unit directory : String)
    (age_days : Int) (formats : List String) (st : SysState) :
    AddResult × SysState :=
  let tasks := load_tasks st.file
  let task_name := "file_deletion_task_" ++ toString (tasks.length + 1)
  let new_task_details := encodeTask ⟨interval, unit, directory, age_days, formats⟩
  if tasks.any (fun kv => dupMatch interval unit directory age_days formats kv.2) then
    (.duplicate, st)
  else
    let tasks' := dictSet tasks task_name new_task_details
    let file' := save_tasks tasks'
    match add_job st.sched task_name
        ⟨.str unit, .num interval, .str directory, .num age_days,
         .arr (formats.map .str)⟩ with
    | .error e => (.conflict e, ⟨file', st.sched⟩)
    | .ok s' => (.added task_name, ⟨file', s'⟩)

/-- Result of `remove_file_deletion_task`: unknown id (line 126), removed with
its trigger disarmed (line 138), or removed while no trigger was armed
(line 142, the tolerated-absence branch). -/
inductive RemoveResult where
  | notFound
  | removed
  | removedNoTrigger
deriving DecidableEq, Repr

/-- `remove_file_deletion_task` (source lines 120-142): report not-found
without mutation for an unknown id; otherwise delete the entry, persist, and
disarm the trigger only if the scheduler has one, non-fatally either way. -/
def remove_file_deletion_task (task_name : String) (st : SysState) :
    RemoveResult × SysState :=
  let tasks := load_tasks st.file
  if keyMem task_name tasks then
    let tasks' := dictDel tasks task_name
    let file' := save_tasks tasks'
    if get_job st.sched task_name then
      (.removed, ⟨file', remove_job st.sched task_name⟩)
    else
      (.removedNoTrigger, ⟨file', st.sched⟩)
  else
    (.notFound, st)

/-- The trigger and argument capture of source lines 148-149: every field is
read from the persisted record. -/
def jobOfDetails (d : Json) : JobEntry :=
  ⟨jGetD d "unit", jGetD d "interval", jGetD d "directory",
   jGetD d "age_days", jGetD d "formats"⟩

/-- The `for` loop of `load_and_schedule_tasks`: arm each persisted task in
order; a `ConflictingIdError` from `add_job` aborts the loop and propagates
(first component `some id`), leaving the job store as already mutated. -/
def scheduleAll : JDict → Sched → Option String × Sched
  | [], s => (none, s)
  | (task_name, d) :: rest, s =>
    match add_job s task_name (jobOfDetails d) with
    | .error e => (some e, s)
    | .ok s' => scheduleAll rest s'

/-- `load_and_schedule_tasks` (source lines 144-149): load the store and arm a
trigger for every entry. -/
def load_and_schedule_tasks (st : SysState) : Option String × SysState :=
  let r := scheduleAll (load_tasks st.file) st.sched
  (r.1, ⟨st.file, r.2⟩)

/-! ## Deletion job -/

/-- Python `str.lower` on one character, ASCII fragment (the program's format
strings and file extensions; the claims never leave ASCII). -/
def lowerChar (c : Char) : Char :=
  if 65 ≤ c.toNat ∧ c.toNat ≤ 90 then Char.ofNat (c.toNat + 32) else c

/-- Python `str.lower`, ASCII fragment. -/
def lowerStr (s : String) : String :=
  ⟨s.data.map lowerChar⟩

/-- Core of `os.path.splitext` on a basename: scan left to right; each dot
starts a new candidate extension, valid only if some non-dot character
precedes it (leading dots of the basename never open an extension). -/
def splitextGo : List Char → Bool → Bool → List Char → List Char
  | [], valid, _, ext => if valid then ext else []
  | c :: cs, valid, seen, ext =>
    if c = '.' then splitextGo cs seen seen ['.']
    else splitextGo cs valid true (if ext.isEmpty then [] else ext ++ [c])

/-- `os.path.splitext(file)[1]` for the basenames yielded by `os.walk`:
the suffix from the last dot, or `""` when every character before the last
dot is itself a dot (e.g. `".bashrc"`). -/
def splitextExt (name : String) : String :=
  ⟨splitextGo name.data false false []⟩

/-- One file visited by the `os.walk` loop: its basename, its
last-modified time (`os.path.getmtime`, whole seconds), and whether
`os.remove` succeeds on it. -/
structure FsFile where
  name : String
  mtime : Int
  removeOk : Bool
deriving DecidableEq, Repr

/-- The candidate test of source line 53:
`os.path.splitext(file)[1].lower() in formats and os.path.getmtime(file_path) < cutoff_time`. -/
def isCandidate (formats : List String) (cutoff : Int) (f : FsFile) : Bool :=
  formats.contains (lowerStr (splitextExt f.name)) && decide (f.mtime < cutoff)

/-- The walk loop of source lines 48-56 inside the single `try` of line 43:
each candidate is removed and recorded; a failing `os.remove` raises,
aborting the remaining scan (second component `false`) with only the files
deleted so far (first component). -/
def deletionScan (formats : List String) (cutoff : Int) :
    List FsFile → List String → List String × Bool
  | [], deleted => (deleted, true)
  | f :: rest, deleted =>
    if isCandidate formats cutoff f then
      if f.removeOk then deletionScan formats cutoff rest (deleted ++ [f.name])
      else (deleted, false)
    else deletionScan formats cutoff rest deleted

/-- Reported outcome of one job run: success with the deleted list (source
lines 58-62) or the error report of the `except` branch (lines 63-65). -/
inductive JobOutcome where
  | success (deleted : List String)
  | failure
deriving DecidableEq, Repr

/-- `file_deletion_task` (source lines 41-65): compute
`cutoff = time.time() - age_days * 86400`, scan the directory, and report. -/
def file_deletion_task (now age_days : Int) (formats : List String)
    (files : List FsFile) : JobOutcome :=
  let cutoff := now - age_days * 86400
  let r := deletionScan formats cutoff files []
  if r.2 then .success r.1 else .failure

/-! ## Helper lemmas -/

theorem lowerChar_ne_L (c : Char) : lowerChar c ≠ 'L' := by
  unfold lowerChar
  split
  · rename_i h
    obtain ⟨h1, h2⟩ := h
    generalize c.toNat = n at h1 h2 ⊢
    interval_cases n <;> decide
  · rename_i h
    intro hc
    subst hc
    exact h (by decide)

theorem lowerStr_ne_of_mem_L (s t : String) (hL : 'L' ∈ t.data) : lowerStr s ≠ t := by
  intro h
  rw [← h] at hL
  have hm : 'L' ∈ s.data.map lowerChar := hL
  obtain ⟨c, -, hc⟩ := List.mem_map.mp hm
  exact lowerChar_ne_L c hc

theorem isCandidate_mixed_case_false (t : String) (hL : 'L' ∈ t.data)
    (cutoff : Int) (f : FsFile) : isCandidate [t] cutoff f = false := by
  have hne : lowerStr (splitextExt f.name) ≠ t := lowerStr_ne_of_mem_L _ _ hL
  have hc : ([t].contains (lowerStr (splitextExt f.name))) = false := by
    show (lowerStr (splitextExt f.name) == t || false) = false
    simp [beq_eq_false_iff_ne.mpr hne]
  unfold isCandidate
  rw [hc, Bool.false_and]

theorem deletionScan_unmatchable_eq (t₁ t₂ : String)
    (h1 : 'L' ∈ t₁.data) (h2 : 'L' ∈ t₂.data) (cutoff : Int)
    (files : List FsFile) (acc : List String) :
    deletionScan [t₁] cutoff files acc = deletionScan [t₂] cutoff files acc := by
  induction files generalizing acc with
  | nil => rfl
  | cons f rest ih =>
    simp [deletionScan, isCandidate_mixed_case_false t₁ h1 cutoff f,
      isCandidate_mixed_case_false t₂ h2 cutoff f, ih]

theorem dupMatch_formats_congr (interval : Int) (unit directory : String)
    (age_days : Int) (fs1 fs2 : List String)
    (h12 : ∀ s ∈ fs1, s ∈ fs2) (h21 : ∀ s ∈ fs2, s ∈ fs1) (d : Json)
    (h : dupMatch interval unit directory age_days fs1 d = true) :
    dupMatch interval unit directory age_days fs2 d = true := by
  unfold dupMatch at h ⊢
  simp only [Bool.and_eq_true] at h ⊢
  obtain ⟨⟨⟨⟨hi, hu⟩, hd⟩, ha⟩, hf⟩ := h
  refine ⟨⟨⟨⟨hi, hu⟩, hd⟩, ha⟩, ?_⟩
  cases hj : jGetD d "formats" with
  | arr l =>
    rw [hj] at hf
    simp only [Bool.and_eq_true, List.all_eq_true] at hf ⊢
    obtain ⟨hall, hmemf⟩ := hf
    constructor
    · intro j hjl
      have hj1 := hall j hjl
      cases j with
      | str t => exact List.elem_eq_true_of_mem (h12 t (List.elem_iff.mp hj1))
      | null => simp at hj1
      | bool b => simp at hj1
      | num n => simp at hj1
      | arr l2 => simp at hj1
      | obj o => simp at hj1
    · intro s hs
      exact hmemf s (h21 s hs)
  | null => rw [hj] at hf; simp at hf
  | bool b => rw [hj] at hf; simp at hf
  | num n => rw [hj] at hf; simp at hf
  | str t => rw [hj] at hf; simp at hf
  | obj o => rw [hj] at hf; simp at hf

theorem dupMatch_encodeTask (interval : Int) (unit directory : String)
    (age_days : Int) (fs1 fs2 : List String)
    (h12 : ∀ s ∈ fs1, s ∈ fs2) (h21 : ∀ s ∈ fs2, s ∈ fs1) :
    dupMatch interval unit directory age_days fs2
      (encodeTask ⟨interval, unit, directory, age_days, fs1⟩) = true := by
  show ((interval == interval) &&
        (unit == unit) &&
        (directory == directory) &&
        (age_days == age_days) &&
        ((fs1.map Json.str).all
            (fun j => match j with | .str t => fs2.contains t | _ => false) &&
          fs2.all (fun s => (fs1.map Json.str).any
            (fun j => match j with | .str t => t == s | _ => false)))) = true
  simp only [beq_self_eq_true, Bool.true_and, Bool.and_eq_true,
    List.all_eq_true, List.any_eq_true]
  constructor
  · intro j hj
    obtain ⟨s, hs, rfl⟩ := List.mem_map.mp hj
    exact List.elem_eq_true_of_mem (h12 s hs)
  · intro s hs
    exact ⟨Json.str s, List.mem_map_of_mem _ (h21 s hs), by simp⟩

theorem dictSet_mem (d : JDict) (k : String) (v : Json) : (k, v) ∈ dictSet d k v := by
  induction d with
  | nil => exact List.mem_singleton.mpr rfl
  | cons kv rest ih =>
    obtain ⟨k', v'⟩ := kv
    by_cases hk : k' = k
    · simp [dictSet, hk]
    · simp only [dictSet, if_neg hk]
      exact List.mem_cons_of_mem _ ih

theorem keyMem_dictDel (d : JDict) (k : String) : keyMem k (dictDel d k) = false := by
  rw [Bool.eq_false_iff]
  intro hcon
  obtain ⟨kv, hmem, hk⟩ := List.any_eq_true.mp hcon
  have hkeep := (List.mem_filter.mp hmem).2
  rw [hk] at hkeep
  simp at hkeep

theorem remove_job_absent (s : Sched) (id : String) (h : get_job s id = false) :
    remove_job s id = s := by
  apply List.filter_eq_self.mpr
  intro kv hmem
  have := List.any_eq_false.mp h kv hmem
  simp [this]

theorem get_job_append (s t : Sched) (k : String) :
    get_job (s ++ t) k = (get_job s k || get_job t k) := by
  simp [get_job, List.any_append]

theorem scheduleAll_fresh (tasks : JDict) :
    ∀ (s : Sched), (tasks.map Prod.fst).Nodup →
    (∀ k ∈ tasks.map Prod.fst, get_job s k = false) →
    scheduleAll tasks s
      = (none, s ++ tasks.map (fun kv => (kv.1, jobOfDetails kv.2))) := by
  induction tasks with
  | nil => intro s _ _; simp [scheduleAll]
  | cons kv rest ih =>
    intro s hnd hfresh
    obtain ⟨k, d⟩ := kv
    rw [List.map_cons, List.nodup_cons] at hnd
    have hk : (s.any fun kv => kv.1 == k) = false := hfresh k (by simp)
    have hfresh' : ∀ k' ∈ rest.map Prod.fst,
        get_job (s ++ [(k, jobOfDetails d)]) k' = false := by
      intro k' hk'
      rw [get_job_append]
      have h1 : get_job s k' = false := hfresh k' (by simp [hk'])
      have hne : (k == k') = false := by
        apply beq_eq_false_iff_ne.mpr
        intro hkk
        exact hnd.1 (hkk ▸ hk')
      have h2 : get_job [(k, jobOfDetails d)] k' = false := by
        simp [get_job, hne]
      rw [h1, h2]
      rfl
    simp only [scheduleAll, add_job, hk, Bool.false_eq_true, if_false]
    rw [ih (s ++ [(k, jobOfDetails d)]) hnd.2 hfresh']
    simp

theorem scheduleAll_head_armed (k : String) (d : Json) (rest : JDict) (s : Sched)
    (h : get_job s k = true) : scheduleAll ((k, d) :: rest) s = (some k, s) := by
  have hk : (s.any fun kv => kv.1 == k) = true := h
  simp only [scheduleAll, add_job, hk, if_true]

theorem triggerCount_map_store (store : JDict) (k : String)
    (hnd : (store.map Prod.fst).Nodup) (hk : k ∈ store.map Prod.fst) :
    triggerCount (store.map (fun kv => (kv.1, jobOfDetails kv.2))) k = 1 := by
  induction store with
  | nil => simp at hk
  | cons kv rest ih =>
    obtain ⟨k0, d0⟩ := kv
    rw [List.map_cons, List.nodup_cons] at hnd
    rw [List.map_cons, List.mem_cons] at hk
    unfold triggerCount at ih ⊢
    rw [List.map_cons, List.countP_cons]
    by_cases he : k0 = k
    · subst he
      have hz : (rest.map (fun kv => (kv.1, jobOfDetails kv.2))).countP
          (fun kv => kv.1 == k0) = 0 := by
        apply List.countP_eq_zero.mpr
        intro a ha hb
        obtain ⟨kv', hkv', rfl⟩ := List.mem_map.mp ha
        have hq : kv'.1 = k0 := eq_of_beq hb
        have hn1 : k0 ∉ List.map Prod.fst rest := hnd.1
        apply hn1
        rw [← hq]
        exact List.mem_map_of_mem Prod.fst hkv'
      simp [hz]
    · have hk' : k ∈ rest.map Prod.fst := by
        rcases hk with h | h
        · exact absurd h.symm he
        · exact h
      have hb : ((k0, jobOfDetails d0).1 == k) = false := beq_eq_false_iff_ne.mpr he
      simp [hb, ih hnd.2 hk']

/-! ## Claim theorems -/

/-- C8: `load_tasks` never fails its caller: on a missing file
(`FileNotFoundError`) or malformed content (`JSONDecodeError`) it returns the
empty mapping. -/
theorem load_missing_or_malformed_empty :
    load_tasks .missing = [] ∧ load_tasks .malformed = [] :=
  ⟨rfl, rfl⟩

/-- C7: persistence round-trips losslessly: saving a mapping of task
definitions and loading it back yields the same JSON dict, and decoding the
persisted records recovers every field of every task (including `formats`
exactly, hence also as a set). -/
theorem save_load_round_trip (m : List (String × TaskDetails)) :
    load_tasks (save_tasks (encodeStore m)) = encodeStore m ∧
    decodeStore (encodeStore m) = some m :=
  ⟨rfl, decodeStore_encodeStore m⟩

/-- C4 counterexample: the file `a.LOG` (old enough: mtime 0, cutoff 1) with
`formats=[".Log"]` — a formats entry differing from the file's extension only
by letter case — is NOT a deletion candidate, contradicting the claim that
mixed-case formats still match after normalization. -/
theorem mixed_case_format_not_candidate_cex :
    isCandidate [".Log"] 1 ⟨"a.LOG", 0, true⟩ = false := by
  decide

/-- C4 amended: extension matching is case-normalized on the file side only:
the file's extension is lowercased before the membership test, so `a.LOG` is a
candidate for `formats=[".log"]`, but format strings are compared verbatim, so
a mixed-case format such as `".Log"` matches no file at all. -/
theorem extension_lowercased_one_sided :
    isCandidate [".log"] 1 ⟨"a.LOG", 0, true⟩ = true ∧
    (∀ (cutoff : Int) (f : FsFile), isCandidate [".Log"] cutoff f = false) := by
  refine ⟨by decide, ?_⟩
  intro cutoff f
  exact isCandidate_mixed_case_false ".Log" (by decide) cutoff f

/-- C5: the age comparison is strict: for a file whose (lowercased) extension
is in `formats` and which `os.remove` can delete, the job deletes it iff its
modification time is strictly below `cutoff = now - age_days * 86400`; at
exactly the cutoff it is kept, one second older it is deleted. -/
theorem age_cutoff_strict (now age_days : Int) (formats : List String) (f : FsFile)
    (hext : formats.contains (lowerStr (splitextExt f.name)) = true)
    (hok : f.removeOk = true) :
    (file_deletion_task now age_days formats [f] = .success [f.name] ↔
      f.mtime < now - age_days * 86400) ∧
    (f.mtime = now - age_days * 86400 →
      file_deletion_task now age_days formats [f] = .success []) ∧
    (f.mtime = now - age_days * 86400 - 1 →
      file_deletion_task now age_days formats [f] = .success [f.name]) := by
  have hmem : lowerStr (splitextExt f.name) ∈ formats := List.elem_iff.mp hext
  refine ⟨?_, ?_, ?_⟩
  · by_cases hm : f.mtime < now - age_days * 86400
    · simp [file_deletion_task, deletionScan, isCandidate, hext, hmem, hok, hm]
    · simp [file_deletion_task, deletionScan, isCandidate, hext, hmem, hok, hm]
  · intro he
    have hm : ¬ f.mtime < now - age_days * 86400 := by omega
    simp [file_deletion_task, deletionScan, isCandidate, hext, hmem, hok, hm]
  · intro he
    have hm : f.mtime < now - age_days * 86400 := by omega
    simp [file_deletion_task, deletionScan, isCandidate, hext, hmem, hok, hm]

/-- C5 witness: a concrete matching file one second older than the cutoff is
deleted; at the cutoff exactly it is not. -/
theorem age_cutoff_strict_witness :
    ([".log"].contains (lowerStr (splitextExt "a.log")) = true) ∧
    file_deletion_task 700000 7 [".log"] [⟨"a.log", 700000 - 7 * 86400 - 1, true⟩]
      = .success ["a.log"] ∧
    file_deletion_task 700000 7 [".log"] [⟨"a.log", 700000 - 7 * 86400, true⟩]
      = .success [] := by
  refine ⟨by decide, ?_, ?_⟩
  · exact (age_cutoff_strict 700000 7 [".log"] ⟨"a.log", 700000 - 7 * 86400 - 1, true⟩
      (by decide) rfl).2.2 (by decide)
  · exact (age_cutoff_strict 700000 7 [".log"] ⟨"a.log", 700000 - 7 * 86400, true⟩
      (by decide) rfl).2.1 (by decide)

/-- C3 counterexample: with two old `.log` files where `os.remove` fails on
the first, the job aborts: the second matching candidate `b.log` is neither
deleted (the deleted-so-far list is empty) nor recorded in any deleted-list
(the outcome is the error report), contradicting best-effort-per-file. -/
theorem delete_failure_aborts_scan_cex :
    file_deletion_task 100 0 [".log"] [⟨"a.log", 0, false⟩, ⟨"b.log", 0, true⟩]
      = .failure ∧
    (deletionScan [".log"] 100 [⟨"a.log", 0, false⟩, ⟨"b.log", 0, true⟩] []).1
      = [] := by
  constructor <;> rfl

/-- C3 amended: a failure to delete one candidate file aborts the scan: the
remaining files are not examined and nothing further is deleted (the scan
stops with only the files deleted before the failure), and the job reports
the failure instead of a deleted-list. -/
theorem delete_failure_aborts_scan (formats : List String) (cutoff : Int)
    (f : FsFile) (rest : List FsFile)
    (hc : isCandidate formats cutoff f = true) (hf : f.removeOk = false) :
    (∀ acc, deletionScan formats cutoff (f :: rest) acc = (acc, false)) ∧
    (∀ now age_days : Int, now - age_days * 86400 = cutoff →
      file_deletion_task now age_days formats (f :: rest) = .failure) := by
  have key : ∀ acc, deletionScan formats cutoff (f :: rest) acc = (acc, false) := by
    intro acc
    simp [deletionScan, hc, hf]
  refine ⟨key, ?_⟩
  intro now age_days h
  simp only [file_deletion_task, h, key []]
  rfl

/-- C3 amended witness: the failing candidate aborts the concrete scan and
the concrete job reports failure. -/
theorem delete_failure_aborts_scan_witness :
    isCandidate [".log"] 50 ⟨"a.log", 0, false⟩ = true ∧
    deletionScan [".log"] 50 [⟨"a.log", 0, false⟩, ⟨"c.log", 0, true⟩] ["z.log"]
      = (["z.log"], false) ∧
    file_deletion_task 50 0 [".log"] [⟨"a.log", 0, false⟩, ⟨"c.log", 0, true⟩]
      = .failure := by
  refine ⟨by decide, ?_, ?_⟩
  · exact (delete_failure_aborts_scan [".log"] 50 ⟨"a.log", 0, false⟩
      [⟨"c.log", 0, true⟩] (by decide) rfl).1 ["z.log"]
  · exact (delete_failure_aborts_scan [".log"] 50 ⟨"a.log", 0, false⟩
      [⟨"c.log", 0, true⟩] (by decide) rfl).2 50 0 (by decide)

/-- C1: on the concrete run add(`/a`), add(`/b`), remove(task 1), add(`/c`),
the store before the last add holds exactly the id `file_deletion_task_2`,
yet the last add derives its id from the current task count (`len(tasks)+1`),
regenerates `file_deletion_task_2`, and silently overwrites that task's store
entry; arming then raises a conflicting-id error for the reused id.  This
contradicts the claimed id-uniqueness/no-reuse invariant (the spec's design
notes flag the same defect). -/
theorem add_reuses_id_and_overwrites :
    ((load_tasks (remove_file_deletion_task "file_deletion_task_1"
        (add_file_deletion_task 1 "days" "/b" 1 [".b"]
          (add_file_deletion_task 1 "days" "/a" 1 [".a"] ⟨.missing, []⟩).2).2).2.file).map
        Prod.fst = ["file_deletion_task_2"]) ∧
    (add_file_deletion_task 1 "days" "/c" 1 [".c"]
        (remove_file_deletion_task "file_deletion_task_1"
          (add_file_deletion_task 1 "days" "/b" 1 [".b"]
            (add_file_deletion_task 1 "days" "/a" 1 [".a"] ⟨.missing, []⟩).2).2).2).1
      = .conflict "file_deletion_task_2" ∧
    load_tasks (add_file_deletion_task 1 "days" "/c" 1 [".c"]
        (remove_file_deletion_task "file_deletion_task_1"
          (add_file_deletion_task 1 "days" "/b" 1 [".b"]
            (add_file_deletion_task 1 "days" "/a" 1 [".a"] ⟨.missing, []⟩).2).2).2).2.file
      = [("file_deletion_task_2", encodeTask ⟨1, "days", "/c", 1, [".c"]⟩)] :=
  ⟨rfl, rfl, rfl⟩

/-- C10: the duplicate check compares `formats` case-sensitively while the
deletion job lowercases file extensions: the pair of add calls with
`formats=[".LOG"]` and `formats=[".Log"]`, identical in every other field, is
not rejected as a duplicate — both tasks are stored — and for every directory
state the two tasks delete exactly the same set of files. -/
theorem case_sensitive_dup_check_same_deletions :
    (add_file_deletion_task 1 "days" "/tmp/x" 7 [".LOG"] ⟨.missing, []⟩).1
      = .added "file_deletion_task_1" ∧
    (add_file_deletion_task 1 "days" "/tmp/x" 7 [".Log"]
        (add_file_deletion_task 1 "days" "/tmp/x" 7 [".LOG"] ⟨.missing, []⟩).2).1
      = .added "file_deletion_task_2" ∧
    ((load_tasks (add_file_deletion_task 1 "days" "/tmp/x" 7 [".Log"]
        (add_file_deletion_task 1 "days" "/tmp/x" 7 [".LOG"] ⟨.missing, []⟩).2).2.file).map
        Prod.fst = ["file_deletion_task_1", "file_deletion_task_2"]) ∧
    (∀ (cutoff : Int) (files : List FsFile),
      deletionScan [".LOG"] cutoff files [] = deletionScan [".Log"] cutoff files []) := by
  refine ⟨rfl, rfl, rfl, ?_⟩
  intro cutoff files
  exact deletionScan_unmatchable_eq ".LOG" ".Log" (by decide) (by decide) cutoff files []

/-- C2: duplicate suppression: for any pair of add calls with equal
`interval`, `unit`, `directory`, `age_days` and equal `formats`-as-sets, the
second call is rejected as a duplicate and changes nothing: the returned state
(tasks file and scheduler job store alike) is exactly the state the first call
left behind. -/
theorem add_duplicate_rejected (st : SysState) (interval : Int)
    (unit directory : String) (age_days : Int) (fs1 fs2 : List String)
    (h12 : ∀ s ∈ fs1, s ∈ fs2) (h21 : ∀ s ∈ fs2, s ∈ fs1) :
    add_file_deletion_task interval unit directory age_days fs2
        (add_file_deletion_task interval unit directory age_days fs1 st).2
      = (.duplicate,
        (add_file_deletion_task interval unit directory age_days fs1 st).2) := by
  have hkey : ∃ kv ∈ load_tasks
      (add_file_deletion_task interval unit directory age_days fs1 st).2.file,
      dupMatch interval unit directory age_days fs2 kv.2 = true := by
    by_cases h1 : ((load_tasks st.file).any
        (fun kv => dupMatch interval unit directory age_days fs1 kv.2)) = true
    · have hst1 : (add_file_deletion_task interval unit directory age_days fs1 st)
          = (.duplicate, st) := by
        simp only [add_file_deletion_task, h1, if_true]
      rw [hst1]
      obtain ⟨kv, hmem, hkv⟩ := List.any_eq_true.mp h1
      exact ⟨kv, hmem, dupMatch_formats_congr _ _ _ _ _ _ h12 h21 _ hkv⟩
    · have hfile : (add_file_deletion_task interval unit directory age_days fs1 st).2.file
          = save_tasks (dictSet (load_tasks st.file)
              ("file_deletion_task_" ++ toString ((load_tasks st.file).length + 1))
              (encodeTask ⟨interval, unit, directory, age_days, fs1⟩)) := by
        simp only [add_file_deletion_task]
        rw [if_neg h1]
        split <;> rfl
      rw [hfile]
      exact ⟨("file_deletion_task_" ++ toString ((load_tasks st.file).length + 1),
              encodeTask ⟨interval, unit, directory, age_days, fs1⟩),
             dictSet_mem _ _ _,
             dupMatch_encodeTask _ _ _ _ _ _ h12 h21⟩
  obtain ⟨kv, hmem, hkv⟩ := hkey
  set st1 := (add_file_deletion_task interval unit directory age_days fs1 st).2 with hst1def
  have hany : ((load_tasks st1.file).any
      (fun kv => dupMatch interval unit directory age_days fs2 kv.2)) = true :=
    List.any_eq_true.mpr ⟨kv, hmem, hkv⟩
  simp only [add_file_deletion_task, hany, if_true]

/-- C2 witness: a concrete second add with the same fields and set-equal
(reordered, duplicated) formats is rejected and leaves the state of the first
add untouched. -/
theorem add_duplicate_rejected_witness :
    (∀ s ∈ [".log", ".tmp"], s ∈ [".tmp", ".log", ".log"]) ∧
    (∀ s ∈ [".tmp", ".log", ".log"], s ∈ [".log", ".tmp"]) ∧
    add_file_deletion_task 1 "days" "/tmp/x" 7 [".tmp", ".log", ".log"]
        (add_file_deletion_task 1 "days" "/tmp/x" 7 [".log", ".tmp"] ⟨.missing, []⟩).2
      = (.duplicate,
        (add_file_deletion_task 1 "days" "/tmp/x" 7 [".log", ".tmp"] ⟨.missing, []⟩).2) :=
  ⟨by decide, by decide,
    add_duplicate_rejected ⟨.missing, []⟩ 1 "days" "/tmp/x" 7 [".log", ".tmp"]
      [".tmp", ".log", ".log"] (by decide) (by decide)⟩

/-- C9: removing an id absent from the store reports not-found and mutates
nothing; removing a present id deletes the entry, persists the shrunken
store, and disarms the trigger, succeeding (with the not-running notice, not
an error) even when no trigger is armed under the id — in both present-id
branches the scheduler ends up exactly at `remove_job`. -/
theorem remove_spec (st : SysState) (id : String) :
    (keyMem id (load_tasks st.file) = false →
      remove_file_deletion_task id st = (.notFound, st)) ∧
    (keyMem id (load_tasks st.file) = true →
      (remove_file_deletion_task id st).1 ≠ .notFound ∧
      (remove_file_deletion_task id st).2.file
        = save_tasks (dictDel (load_tasks st.file) id) ∧
      keyMem id (load_tasks (remove_file_deletion_task id st).2.file) = false ∧
      (remove_file_deletion_task id st).2.sched = remove_job st.sched id) := by
  constructor
  · intro h
    simp only [remove_file_deletion_task, h, Bool.false_eq_true, if_false]
  · intro h
    have hr : remove_file_deletion_task id st
        = (if get_job st.sched id then
            (.removed, ⟨save_tasks (dictDel (load_tasks st.file) id),
              remove_job st.sched id⟩)
          else
            (.removedNoTrigger, ⟨save_tasks (dictDel (load_tasks st.file) id),
              st.sched⟩)) := by
      simp only [remove_file_deletion_task, h, if_true]
    by_cases hg : get_job st.sched id = true
    · rw [hr, if_pos hg]
      exact ⟨by simp, rfl, keyMem_dictDel _ _, rfl⟩
    · have hg' : get_job st.sched id = false := by
        rwa [Bool.not_eq_true] at hg
      rw [hr, if_neg (by rw [hg']; exact Bool.false_ne_true)]
      exact ⟨by simp, rfl, keyMem_dictDel _ _, (remove_job_absent _ _ hg').symm⟩

/-- C9 witness: on a concrete one-task store, removing an unknown id reports
not-found without mutation; removing the present id (with no trigger armed)
still succeeds, persists the emptied store, and leaves the scheduler at
`remove_job`. -/
theorem remove_spec_witness :
    keyMem "zzz" (load_tasks (SysState.mk
        (save_tasks [("file_deletion_task_1",
          encodeTask ⟨1, "days", "/tmp/x", 7, [".tmp"]⟩)]) []).file) = false ∧
    remove_file_deletion_task "zzz" (SysState.mk
        (save_tasks [("file_deletion_task_1",
          encodeTask ⟨1, "days", "/tmp/x", 7, [".tmp"]⟩)]) [])
      = (.notFound, SysState.mk
          (save_tasks [("file_deletion_task_1",
            encodeTask ⟨1, "days", "/tmp/x", 7, [".tmp"]⟩)]) []) ∧
    keyMem "file_deletion_task_1" (load_tasks (SysState.mk
        (save_tasks [("file_deletion_task_1",
          encodeTask ⟨1, "days", "/tmp/x", 7, [".tmp"]⟩)]) []).file) = true ∧
    (remove_file_deletion_task "file_deletion_task_1" (SysState.mk
        (save_tasks [("file_deletion_task_1",
          encodeTask ⟨1, "days", "/tmp/x", 7, [".tmp"]⟩)]) [])).1 ≠ .notFound ∧
    (remove_file_deletion_task "file_deletion_task_1" (SysState.mk
        (save_tasks [("file_deletion_task_1",
          encodeTask ⟨1, "days", "/tmp/x", 7, [".tmp"]⟩)]) [])).2.sched
      = remove_job [] "file_deletion_task_1" := by
  refine ⟨by decide, ?_, by decide, ?_, ?_⟩
  · exact (remove_spec (SysState.mk
      (save_tasks [("file_deletion_task_1",
        encodeTask ⟨1, "days", "/tmp/x", 7, [".tmp"]⟩)]) []) "zzz").1 (by decide)
  · exact ((remove_spec (SysState.mk
      (save_tasks [("file_deletion_task_1",
        encodeTask ⟨1, "days", "/tmp/x", 7, [".tmp"]⟩)]) [])
      "file_deletion_task_1").2 (by decide)).1
  · exact ((remove_spec (SysState.mk
      (save_tasks [("file_deletion_task_1",
        encodeTask ⟨1, "days", "/tmp/x", 7, [".tmp"]⟩)]) [])
      "file_deletion_task_1").2 (by decide)).2.2.2

/-- C6 counterexample: arming under an id that already has a trigger does not
replace it — it fails: `add_job` on a job store already holding
`file_deletion_task_1` returns the conflicting-id error for that id, and the
second of two reloads of a one-task store aborts with that error instead of
re-arming, contradicting the claimed replace-not-fail semantics. -/
theorem reload_rearm_fails_cex :
    add_job [("file_deletion_task_1",
        jobOfDetails (encodeTask ⟨1, "days", "/tmp/x", 7, [".tmp"]⟩))]
        "file_deletion_task_1"
        (jobOfDetails (encodeTask ⟨1, "days", "/tmp/x", 7, [".tmp"]⟩))
      = .error "file_deletion_task_1" ∧
    (load_and_schedule_tasks (load_and_schedule_tasks
        ⟨save_tasks [("file_deletion_task_1",
          encodeTask ⟨1, "days", "/tmp/x", 7, [".tmp"]⟩)], []⟩).2).1
      = some "file_deletion_task_1" :=
  ⟨rfl, rfl⟩

/-- C6 amended: calling reload twice in succession does leave exactly one
armed trigger per persisted task, but not because re-arming replaces: the
first reload arms every task, and the second reload aborts with a
conflicting-id error at its first task (whenever the store is nonempty),
arming nothing new and leaving the job store unchanged. -/
theorem reload_twice_one_trigger (store : JDict)
    (hnd : (store.map Prod.fst).Nodup) :
    (load_and_schedule_tasks ⟨save_tasks store, []⟩).1 = none ∧
    (∀ k ∈ store.map Prod.fst,
      triggerCount (load_and_schedule_tasks ⟨save_tasks store, []⟩).2.sched k = 1) ∧
    (load_and_schedule_tasks
        (load_and_schedule_tasks ⟨save_tasks store, []⟩).2).2
      = (load_and_schedule_tasks ⟨save_tasks store, []⟩).2 ∧
    (∀ (k : String) (d : Json) (rest : JDict), store = (k, d) :: rest →
      (load_and_schedule_tasks
        (load_and_schedule_tasks ⟨save_tasks store, []⟩).2).1 = some k) ∧
    (∀ k ∈ store.map Prod.fst,
      triggerCount (load_and_schedule_tasks
        (load_and_schedule_tasks ⟨save_tasks store, []⟩).2).2.sched k = 1) := by
  have h1 : scheduleAll store ([] : Sched)
      = (none, [] ++ store.map (fun kv => (kv.1, jobOfDetails kv.2))) :=
    scheduleAll_fresh store [] hnd (fun k _ => rfl)
  have hfirst : load_and_schedule_tasks ⟨save_tasks store, []⟩
      = (none, ⟨save_tasks store,
          store.map (fun kv => (kv.1, jobOfDetails kv.2))⟩) := by
    show ((scheduleAll store []).1,
        (⟨save_tasks store, (scheduleAll store []).2⟩ : SysState))
      = (none, ⟨save_tasks store, store.map (fun kv => (kv.1, jobOfDetails kv.2))⟩)
    rw [h1]
    simp
  have hsecond : load_and_schedule_tasks
      ⟨save_tasks store, store.map (fun kv => (kv.1, jobOfDetails kv.2))⟩
      = ((match store with | [] => none | (k, _) :: _ => some k),
        ⟨save_tasks store, store.map (fun kv => (kv.1, jobOfDetails kv.2))⟩) := by
    cases store with
    | nil => rfl
    | cons kv rest =>
      obtain ⟨k, d⟩ := kv
      have harm : get_job (((k, d) :: rest).map
          (fun kv => (kv.1, jobOfDetails kv.2))) k = true := by
        simp [get_job]
      show ((scheduleAll ((k, d) :: rest) (((k, d) :: rest).map
          (fun kv => (kv.1, jobOfDetails kv.2)))).1,
        (⟨save_tasks ((k, d) :: rest), (scheduleAll ((k, d) :: rest)
          (((k, d) :: rest).map (fun kv => (kv.1, jobOfDetails kv.2)))).2⟩ : SysState))
        = _
      rw [scheduleAll_head_armed k d rest _ harm]
  refine ⟨by rw [hfirst], ?_, ?_, ?_, ?_⟩
  · intro k hk
    rw [hfirst]
    exact triggerCount_map_store store k hnd hk
  · rw [hfirst, hsecond]
  · intro k d rest hs
    rw [hfirst, hsecond]
    subst hs
    rfl
  · intro k hk
    rw [hfirst, hsecond]
    exact triggerCount_map_store store k hnd hk

/-- C6 amended witness: on a concrete one-task store, the second reload
reports the conflicting id and the task still has exactly one armed
trigger. -/
theorem reload_twice_one_trigger_witness :
    (([("file_deletion_task_1", encodeTask ⟨1, "days", "/tmp/x", 7, [".tmp"]⟩)]
        : JDict).map Prod.fst).Nodup ∧
    (load_and_schedule_tasks (load_and_schedule_tasks
        ⟨save_tasks [("file_deletion_task_1",
          encodeTask ⟨1, "days", "/tmp/x", 7, [".tmp"]⟩)], []⟩).2).1
      = some "file_deletion_task_1" ∧
    triggerCount (load_and_schedule_tasks (load_and_schedule_tasks
        ⟨save_tasks [("file_deletion_task_1",
          encodeTask ⟨1, "days", "/tmp/x", 7, [".tmp"]⟩)], []⟩).2).2.sched
        "file_deletion_task_1" = 1 := by
  refine ⟨by decide, ?_, ?_⟩
  · exact (reload_twice_one_trigger
      [("file_deletion_task_1", encodeTask ⟨1, "days", "/tmp/x", 7, [".tmp"]⟩)]
      (by decide)).2.2.2.1 "file_deletion_task_1"
      (encodeTask ⟨1, "days", "/tmp/x", 7, [".tmp"]⟩) [] rfl
  · exact (reload_twice_one_trigger
      [("file_deletion_task_1", encodeTask ⟨1, "days", "/tmp/x", 7, [".tmp"]⟩)]
      (by decide)).2.2.2.2 "file_deletion_task_1" (by decide)

end FileDeletion
